import Mathlib

/-!
# Verification of the resilient acquisition pipeline

A shallow embedding, in Lean 4, of the core algorithms of the
`merukari0.10` repository, together with theorems settling the spec's
claims about them.  Each definition is translated from one Python
function of the repository (named in its doc comment); stateful code is
embedded as explicit state passing, Python exceptions as `Except`, and
`None`-returning fallible code as `Option`.
-/

namespace Merukari

/-! ## Error handler (`src/core/error_handler.py`)

Python exception *types* that the error handler's classification table
and recovery-strategy table mention, plus a constructor for every other
exception type (indexed by a number standing for the type's identity).
-/
/-- The Python exception types relevant to `MercariErrorHandler`:
the six selenium exceptions plus the built-ins named in
`_setup_error_classification`, and `other n` standing for any exception
type not named there. -/
inductive ExcType where
  | timeoutException
  | staleElementReferenceException
  | elementNotInteractableException
  | elementClickInterceptedException
  | noSuchElementException
  | webDriverException
  | connectionError
  | memoryError
  | systemError
  | keyboardInterrupt
  | other (n : Nat)
deriving DecidableEq, Repr

/-- `ErrorSeverity` from `error_handler.py`. -/
inductive ErrorSeverity where
  | LOW
  | MEDIUM
  | HIGH
  | CRITICAL
deriving DecidableEq, Repr

open ExcType ErrorSeverity

/-- The classification table built by
`MercariErrorHandler._setup_error_classification`: for each severity, the
set of exception types mapped to it (membership test, mirroring
`error_type in error_types`). -/
def classification_table (sev : ErrorSeverity) (e : ExcType) : Bool :=
  match sev with
  | LOW => e = timeoutException || e = staleElementReferenceException ||
           e = elementNotInteractableException || e = elementClickInterceptedException
  | MEDIUM => e = noSuchElementException || e = webDriverException
  | HIGH => e = connectionError || e = memoryError
  | CRITICAL => e = systemError || e = keyboardInterrupt

/-- `MercariErrorHandler.classify_error`: scan the classification table
in its (insertion) order LOW, MEDIUM, HIGH, CRITICAL; the first severity
whose set contains the exception's type wins; unmatched types are
classified MEDIUM. -/
def classify_error (e : ExcType) : ErrorSeverity :=
  if classification_table LOW e then LOW
  else if classification_table MEDIUM e then MEDIUM
  else if classification_table HIGH e then HIGH
  else if classification_table CRITICAL e then CRITICAL
  else MEDIUM

/-- A raised Python exception: its type together with a payload number
standing for the identity of the particular exception object (two
distinct raised exceptions have distinct payloads). -/
structure PyExc where
  type : ExcType
  payload : Nat
deriving DecidableEq, Repr

/-- The result dictionary produced by the recovery strategies of
`error_handler.py` (`attempted` / `successful` / `retry_recommended` /
`wait_time`, with `wait_time` in seconds as an exact rational). -/
structure RecoveryResult where
  attempted : Bool
  successful : Bool
  retry_recommended : Bool
  wait_time : ℚ
deriving DecidableEq, Repr

/-- `MercariErrorHandler._default_recovery_strategy`: classify the error;
LOW/MEDIUM severity recommends a retry with wait `random.uniform(3.0, 8.0)`
(the sampled value is passed in as `u`); otherwise no retry, wait 0. -/
def default_recovery_strategy (e : ExcType) (u : ℚ) : RecoveryResult :=
  if classify_error e = LOW ∨ classify_error e = MEDIUM then
    { attempted := true, successful := false, retry_recommended := true, wait_time := u }
  else
    { attempted := true, successful := false, retry_recommended := false, wait_time := 0 }

/-- The set of exception types for which
`MercariErrorHandler._setup_recovery_strategies` registers a dedicated
strategy. -/
def has_registered_strategy (e : ExcType) : Bool :=
  e = timeoutException || e = noSuchElementException ||
  e = staleElementReferenceException || e = elementNotInteractableException ||
  e = elementClickInterceptedException || e = webDriverException

/-- The dedicated recovery strategies of `error_handler.py`, evaluated in
a context with no `driver` and no `element` key (the context built by the
`retry_on_error` wrapper has neither, so each strategy takes its
fallback branch).  `u` is the value sampled by the strategy's
`random.uniform` call.  Strategies for types without a registered entry
fall through to `_default_recovery_strategy`
(`_execute_recovery_strategy`). -/
def execute_recovery_strategy (e : ExcType) (u : ℚ) : RecoveryResult :=
  match e with
  | timeoutException =>
      -- `_handle_timeout_error`, no driver: fallback branch
      { attempted := true, successful := false, retry_recommended := true, wait_time := u }
  | noSuchElementException =>
      -- `_handle_element_not_found`, no driver: fallback branch
      { attempted := true, successful := false, retry_recommended := true, wait_time := u }
  | staleElementReferenceException =>
      -- `_handle_stale_element`
      { attempted := true, successful := true, retry_recommended := true, wait_time := u }
  | elementNotInteractableException =>
      -- `_handle_element_not_interactable`, no driver/element: fallback branch
      { attempted := true, successful := false, retry_recommended := true, wait_time := u }
  | elementClickInterceptedException =>
      -- `_handle_click_intercepted`, no driver: fallback branch
      { attempted := true, successful := false, retry_recommended := true, wait_time := u }
  | webDriverException =>
      -- `_handle_webdriver_error`: recommends a driver restart, no retry
      { attempted := true, successful := false, retry_recommended := false, wait_time := u }
  | _ => default_recovery_strategy e u

/-- `MercariErrorHandler.handle_error`, restricted to the fields the
retry loop consults: runs `_execute_recovery_strategy` and reports
`retry_recommended` and `wait_time` (statistics updates and logging are
side effects on counters/logs the claims do not mention). -/
def handle_error (e : PyExc) (u : ℚ) : RecoveryResult :=
  execute_recovery_strategy e.type u

/-- `RetryConfig` from `error_handler.py` (delays in seconds, exact
rationals). -/
structure RetryConfig where
  max_retries : Nat := 3
  base_delay : ℚ := 1
  max_delay : ℚ := 60
  backoff_multiplier : ℚ := 2
deriving Repr

/-- The result of running the `retry_on_error` wrapper: the value
returned, or the exception finally re-raised; together with the number
of times the wrapped operation was invoked. -/
structure RetryRun (α : Type) where
  result : Except PyExc α
  invocations : Nat
deriving Repr

/-- The loop body of the `retry_on_error` decorator's `wrapper`
(`for attempt in range(config.max_retries + 1)`), with the operation
modelled as a function from the attempt index to its outcome, and the
per-attempt `random.uniform` samples supplied by `us`.  `handler` says
whether an `error_handler` was passed to the decorator (when it is,
`handle_error` decides `retry_recommended`; a non-recommendation breaks
out of the loop, after which the last exception is re-raised). -/
def retry_loop (handler : Bool) (op : Nat → Except PyExc α)
    (us : Nat → ℚ) (attempt : Nat) (remaining : Nat) : RetryRun α :=
  match op attempt with
  | Except.ok v => { result := Except.ok v, invocations := 1 }
  | Except.error e =>
    match remaining with
    | 0 =>
      -- `attempt == config.max_retries`: break, then re-raise
      { result := Except.error e, invocations := 1 }
    | r + 1 =>
      if handler ∧ ¬ (handle_error e (us attempt)).retry_recommended then
        { result := Except.error e, invocations := 1 }
      else
        let rest := retry_loop handler op us (attempt + 1) r
        { result := rest.result, invocations := rest.invocations + 1 }

/-- `retry_on_error(retry_config, error_handler)` applied to an
operation: run the attempt loop from attempt 0 with
`config.max_retries` further attempts permitted (the loop body runs for
`attempt in range(config.max_retries + 1)`); when every attempt fails,
the last exception is re-raised (`raise last_exception`). -/
def retry_on_error (config : RetryConfig) (handler : Bool)
    (op : Nat → Except PyExc α) (us : Nat → ℚ) : RetryRun α :=
  retry_loop handler op us 0 config.max_retries

/-- Spec-side rendering of §3's static severity mapping: each named
error kind maps to exactly one severity, unmapped kinds to MEDIUM.
Written from the spec's words, to be compared with `classify_error` as
translated from the code. -/
def severity_table_spec (e : ExcType) : ErrorSeverity :=
  match e with
  | timeoutException => LOW
  | staleElementReferenceException => LOW
  | elementNotInteractableException => LOW
  | elementClickInterceptedException => LOW
  | noSuchElementException => MEDIUM
  | webDriverException => MEDIUM
  | connectionError => HIGH
  | memoryError => HIGH
  | systemError => CRITICAL
  | keyboardInterrupt => CRITICAL
  | other _ => MEDIUM

/-! ## Price extraction (`src/core/utils.py`, `extract_price`)

`extract_price` tries three regex patterns in order:
  1. `[￥¥]?\s*([0-9,]+)\s*円?`
  2. `([0-9,]+)\s*[￥¥円]`
  3. `([0-9,]+)`
For each, `re.search` finds the leftmost match; the captured group of
patterns 1 and 3 is the first maximal run of `[0-9,]` characters in the
text (the optional prefix/suffix parts of pattern 1 never constrain the
group).  Pattern 2's group is the first maximal `[0-9,]` run that is
followed, after optional whitespace, by one of `￥`, `¥`, `円` (greedy
capture with backtracking cannot succeed on a proper prefix of a run,
since the next character would again be in `[0-9,]`).  The captured
string has its commas removed and is parsed with `int`; a value inside
[10, 1_000_000] is returned, anything else falls through to the next
pattern.  We embed texts as `List Char`. -/
/-- A character matched by the `[0-9,]` character class. -/
def isPriceChar (c : Char) : Bool := c.isDigit || c = ','

/-- One of the currency characters `￥`, `¥`, `円` accepted by patterns
1 and 2. -/
def isCurrencyChar (c : Char) : Bool := c = '￥' || c = '¥' || c = '円'

/-- Accumulator pass over the text collecting the maximal `[0-9,]` runs:
`acc` holds (reversed) the run currently being read. -/
def priceRunsAux : List Char → List Char → List (List Char × List Char)
  | [], acc => if acc.isEmpty then [] else [(acc.reverse, [])]
  | c :: cs, acc =>
    if isPriceChar c then priceRunsAux cs (c :: acc)
    else if acc.isEmpty then priceRunsAux cs []
    else (acc.reverse, c :: cs) :: priceRunsAux cs []

/-- The maximal runs of `[0-9,]` characters of a text, each paired with
the remainder of the text that follows it (in order of occurrence). -/
def priceRuns (l : List Char) : List (List Char × List Char) :=
  priceRunsAux l []

/-- The group captured by pattern 1 (`[￥¥]?\s*([0-9,]+)\s*円?`): the
first maximal `[0-9,]` run, if any. -/
def pattern1Group (l : List Char) : Option (List Char) :=
  (priceRuns l).head?.map Prod.fst

/-- Whether the text following a run begins (after optional whitespace)
with a currency character — the `\s*[￥¥円]` tail of pattern 2. -/
def currencyFollows (rest : List Char) : Bool :=
  match rest.dropWhile Char.isWhitespace with
  | [] => false
  | c :: _ => isCurrencyChar c

/-- The group captured by pattern 2 (`([0-9,]+)\s*[￥¥円]`): the first
maximal `[0-9,]` run followed, after optional whitespace, by a currency
character. -/
def pattern2Group (l : List Char) : Option (List Char) :=
  ((priceRuns l).find? (fun pr => currencyFollows pr.2)).map Prod.fst

/-- The group captured by pattern 3 (`([0-9,]+)`): the first maximal
`[0-9,]` run, if any. -/
def pattern3Group (l : List Char) : Option (List Char) :=
  (priceRuns l).head?.map Prod.fst

/-- `int` applied to a string of decimal digit characters. -/
def natOfDigits (ds : List Char) : Nat :=
  ds.foldl (fun a c => 10 * a + (c.toNat - 48)) 0

/-- One iteration of `extract_price`'s pattern loop:
`price = int(match.group(1).replace(',', ''))`, then the range check
`10 <= price <= 1000000`; an empty digit string (`int('')` raising
`ValueError`) or an out-of-range value falls through to the next
pattern. -/
def tryPricePattern (g : Option (List Char)) : Option Nat :=
  match g with
  | none => none
  | some run =>
    let ds := run.filter (fun c => c ≠ ',')
    if ds.isEmpty then none
    else
      let v := natOfDigits ds
      if 10 ≤ v ∧ v ≤ 1000000 then some v else none

/-- `extract_price` from `core/utils.py`: empty text yields `None`;
otherwise the three patterns are tried in order and the first value
inside [10, 1_000_000] is returned. -/
def extract_price (text : List Char) : Option Nat :=
  if text.isEmpty then none
  else
    match tryPricePattern (pattern1Group text) with
    | some v => some v
    | none =>
      match tryPricePattern (pattern2Group text) with
      | some v => some v
      | none => tryPricePattern (pattern3Group text)

/-- The decimal digit character of a digit value (used with values
`< 10` only). -/
def digitCh : Nat → Char
  | 0 => '0' | 1 => '1' | 2 => '2' | 3 => '3' | 4 => '4'
  | 5 => '5' | 6 => '6' | 7 => '7' | 8 => '8' | _ => '9'

/-- The decimal digit characters of a natural number, most significant
first (the rendering `str(p)` / `'{}'.format(p)` uses). -/
def natDigits (n : Nat) : List Char :=
  if h : n < 10 then [digitCh n]
  else natDigits (n / 10) ++ [digitCh (n % 10)]
decreasing_by exact Nat.div_lt_self (by omega) (by omega)

/-- Digit-grouping of a reversed digit list: a comma before the digit of
weight `10^k` whenever `k` is a positive multiple of 3 — the grouping
`'{:,}'.format(p)` produces, seen from the least significant end. -/
def commaGroupRev (r : List Char) (k : Nat) : List Char :=
  match r with
  | [] => []
  | c :: cs =>
    if k % 3 = 0 ∧ k ≠ 0 then ',' :: c :: commaGroupRev cs (k + 1)
    else c :: commaGroupRev cs (k + 1)

/-- Thousands-separated rendering of a digit list (`'{:,}'.format`). -/
def commaGroup (ds : List Char) : List Char :=
  (commaGroupRev ds.reverse 0).reverse

/-- Supported rendering: currency-symbol-prefixed with separators, e.g.
`¥1,000`. -/
def renderYenPrefix (p : Nat) : List Char := '¥' :: commaGroup (natDigits p)

/-- Supported rendering: currency-symbol-suffixed bare digits, e.g.
`1000円`. -/
def renderYenSuffix (p : Nat) : List Char := natDigits p ++ ['円']

/-- Supported rendering: bare digits with separators, e.g. `1,000`. -/
def renderBare (p : Nat) : List Char := commaGroup (natDigits p)

/-! ## Product extraction and validation (`src/modules/research.py`)

`ProductExtractor._extract_single_product` builds a candidate record
from per-field sub-extractors and emits it only when
`_validate_product_data` accepts it.  We embed the element the
sub-extractors crawl as the tuple of their outcomes: for price, the
texts found per price selector (`None` when the selector lookup threw),
fed through `extract_price` exactly as `_extract_product_price` does;
for the other fields, the sub-extractor's returned value (each returns
`None` when every selector fails).  `generate_product_id` and
`extract_keywords_from_title` are passed in as functions, since the
claims depend only on whether the fields were set. -/
/-- Python truthiness of an optional string field of the product dict. -/
def truthyStr : Option String → Bool
  | none => false
  | some s => ¬ (s = "")

/-- Python truthiness of an optional integer field of the product dict. -/
def truthyNat : Option Nat → Bool
  | none => false
  | some p => p ≠ 0

/-- The outcomes of the per-field sub-extractors for one product element
(*what the element yields*, in the order `_extract_single_product` reads
them).  `priceTexts` lists, per `product_price` selector, the text
obtained (`none` when `find_element` threw or the text was absent). -/
structure ElementView where
  url : Option String
  title : Option String
  priceTexts : List (Option (List Char))
  image_url : Option String
  is_sold : Bool
  condition : Option String
  like_count : Nat

/-- `ProductExtractor._extract_product_price`: try each selector's text
in order; a truthy text is fed to `extract_price`, and a truthy result
is returned; otherwise the next selector is tried; `None` when all
fail. -/
def extract_product_price : List (Option (List Char)) → Option Nat
  | [] => none
  | none :: rest => extract_product_price rest
  | some t :: rest =>
    if t.isEmpty then extract_product_price rest
    else
      match extract_price t with
      | some p => if p = 0 then extract_product_price rest else some p
      | none => extract_product_price rest

/-- The candidate product dictionary built by
`_extract_single_product` before validation (the `extracted_at` and
`source_url` bookkeeping fields are wall-clock/session data outside the
claims). -/
structure ProductData where
  url : Option String
  title : Option String
  price : Option Nat
  image_url : Option String
  is_sold : Bool
  condition : Option String
  like_count : Nat
  product_id : Option String
  keywords : Option (List String)
deriving DecidableEq, Repr

/-- The record `_extract_single_product` assembles: each field from its
sub-extractor; `product_id` set (via `generate_product_id`) only when
title and price are both truthy; `keywords` set only when the title is
truthy. -/
def build_product_data (ev : ElementView) (genId : String → Nat → String)
    (kw : String → List String) : ProductData :=
  let price := extract_product_price ev.priceTexts
  { url := ev.url
    title := ev.title
    price := price
    image_url := ev.image_url
    is_sold := ev.is_sold
    condition := ev.condition
    like_count := ev.like_count
    product_id :=
      match ev.title, price with
      | some t, some p => if t ≠ "" ∧ p ≠ 0 then some (genId t p) else none
      | _, _ => none
    keywords :=
      match ev.title with
      | some t => if t ≠ "" then some (kw t) else none
      | none => none }

/-- `ProductExtractor._validate_product_data`: `title` and `price` must
be present and truthy, and the price must be an `int` with
`0 < price <= 10_000_000`. -/
def research_validate_product_data (d : ProductData) : Bool :=
  if ¬ truthyStr d.title then false
  else if ¬ truthyNat d.price then false
  else
    match d.price with
    | none => false
    | some p => if p = 0 ∨ p > 10000000 then false else true

/-- `ProductExtractor._extract_single_product`: build the candidate and
emit it only when `_validate_product_data` accepts it. -/
def extract_single_product (ev : ElementView) (genId : String → Nat → String)
    (kw : String → List String) : Option ProductData :=
  if research_validate_product_data (build_product_data ev genId kw) then
    some (build_product_data ev genId kw)
  else none

/-- `ProductExtractor.extract_products_from_page`: append, in element
order, each candidate `_extract_single_product` emitted. -/
def extract_products_from_page (evs : List ElementView)
    (genId : String → Nat → String) (kw : String → List String) : List ProductData :=
  evs.filterMap (fun ev => extract_single_product ev genId kw)

/-- A sample valid element: title present, price text `¥1,000`. -/
def evValid : ElementView :=
  { url := some "https://jp.mercari.com/item/m1"
    title := some "Sample camera"
    priceTexts := [some ('¥' :: '1' :: ',' :: '0' :: '0' :: '0' :: [])]
    image_url := some "https://img/m1.jpg"
    is_sold := false
    condition := some "new"
    like_count := 3 }

/-- A sample invalid element: no title. -/
def evNoTitle : ElementView :=
  { url := some "https://jp.mercari.com/item/m2"
    title := none
    priceTexts := [some ('9' :: '9' :: '円' :: [])]
    image_url := none
    is_sold := false
    condition := none
    like_count := 0 }

/-- A sample id generator / keyword extractor standing in for
`generate_product_id` / `extract_keywords_from_title`. -/
def genId0 : String → Nat → String := fun t p => t ++ "_" ++ toString p

/-- Sample keyword extractor. -/
def kw0 : String → List String := fun t => [t]

/-! ## Image filter (`src/modules/image_filter.py`)

`ImageFilter._is_professional_item` downloads an item's thumbnail,
rejects near-duplicates by perceptual hash, then scores the image
against weighted heuristics.  A decoded image is embedded through its
observable attributes: its dimensions, the Boolean outcomes of the three
pixel-level checks (`_has_white_background`, `_has_good_lighting`,
`_is_sharp_image` — internal numpy computations whose thresholds the
claims do not quantify over), and the hexadecimal string
`str(imagehash.phash(img))`.  Download failure and undecodable bytes are
the `None` result of `_download_image` (whose bare `except` catches
both).  Ratios are exact rationals; every ratio reachable here (`k/3`
or `k/5`) compares to the literal `0.6` identically under float and
rational semantics. -/
/-- A decoded thumbnail image, as observed by the filter's checks. -/
structure Img where
  width : Nat
  height : Nat
  whiteBackground : Bool
  goodLighting : Bool
  sharp : Bool
  phash : List Char
deriving DecidableEq, Repr

/-- The configuration the filter reads
(`config['professional_features']`). -/
structure ImageFilterConfig where
  white_background : Bool
  min_resolution : Nat
deriving DecidableEq, Repr

/-- An item as seen by `ImageFilter` (a dict with a `thumb_url`; `tag`
stands for the rest of the record's identity). -/
structure FilterItem where
  thumb_url : String
  tag : Nat
deriving DecidableEq, Repr

/-- `ImageFilter._hamming_distance`: positions where the zipped strings
differ. -/
def hamming_distance (s1 s2 : List Char) : Nat :=
  ((s1.zip s2).filter (fun p => p.1 ≠ p.2)).length

/-- `ImageFilter._is_duplicate`: reject when some already-seen
fingerprint is within Hamming distance 4; otherwise record the new
fingerprint (`seen_hashes` embedded as the list of fingerprints in
insertion order; only membership is ever consulted). Returns the
duplicate verdict and the updated fingerprint index. -/
def is_duplicate (seen : List (List Char)) (h : List Char) :
    Bool × List (List Char) :=
  if seen.any (fun s => hamming_distance h s ≤ 4) then (true, seen)
  else (false, seen ++ [h])

/-- `ImageFilter._is_professional_item`: no/failed thumbnail ⇒ `False`;
near-duplicate ⇒ `False`; otherwise the weighted score: white background
worth 2 points (counted only when the check is configured on), minimum
resolution, lighting and sharpness worth 1 each, all contributing to
`max_score` regardless of outcome; passes iff `score/max_score ≥ 0.6`.
Returns the verdict and the updated fingerprint index. -/
def is_professional_item (cfg : ImageFilterConfig)
    (download : String → Option Img) (seen : List (List Char))
    (item : FilterItem) : Bool × List (List Char) :=
  if item.thumb_url = "" then (false, seen)
  else
    match download item.thumb_url with
    | none => (false, seen)
    | some img =>
      match is_duplicate seen img.phash with
      | (true, seen2) => (false, seen2)
      | (false, seen2) =>
        let score : Nat :=
          (if cfg.white_background then (if img.whiteBackground then 2 else 0) else 0) +
          (if cfg.min_resolution ≤ min img.width img.height then 1 else 0) +
          (if img.goodLighting then 1 else 0) +
          (if img.sharp then 1 else 0)
        let max_score : Nat := (if cfg.white_background then 2 else 0) + 3
        if 0 < max_score then
          (decide ((score : ℚ) / (max_score : ℚ) ≥ 3 / 5), seen2)
        else (false, seen2)

/-- `ImageFilter.filter_items`: keep, in order, the items the classifier
passes, threading the instance's fingerprint index through the run. -/
def filter_items (cfg : ImageFilterConfig) (download : String → Option Img)
    (seen : List (List Char)) :
    List FilterItem → List FilterItem × List (List Char)
  | [] => ([], seen)
  | it :: rest =>
    match is_professional_item cfg download seen it with
    | (ok, seen2) =>
      match filter_items cfg download seen2 rest with
      | (tail, seen3) => (if ok then it :: tail else tail, seen3)

/-- A sample image filter configuration with the white-background check
enabled. -/
def cfg0 : ImageFilterConfig := { white_background := true, min_resolution := 300 }

/-- Image achieving 3 of 5 weight-points: white background (2) and
lighting (1); resolution below 300 and not sharp. -/
def img3of5 : Img :=
  { width := 200, height := 200, whiteBackground := true,
    goodLighting := true, sharp := false, phash := ['a', 'b', 'c', 'd'] }

/-- Image achieving 2 of 5 weight-points: resolution (1) and lighting
(1); no white background, not sharp. -/
def img2of5 : Img :=
  { width := 400, height := 400, whiteBackground := false,
    goodLighting := true, sharp := false, phash := ['1', '2', '3', '4'] }

/-- Sample downloader: two reachable thumbnails, everything else
unreachable. -/
def download0 : String → Option Img := fun u =>
  if u = "https://img/3" then some img3of5
  else if u = "https://img/2" then some img2of5
  else none

/-! ## `__NEXT_DATA__` scraper (`src/modules/next_scraper.py`)

`NextDataScraper._parse_items` walks a parsed JSON payload.  We embed
JSON values as the inductive `J` and the relevant Python operations on
them: `dict.get` with default (an `AttributeError` on non-dicts),
truthiness, `for`-iteration, indexing `[0]`, `int(...)`, and
`str(...)`/`repr(...)` (the embedded `repr` renders parsed-JSON values
without escaping quotes inside strings, which no claim exercises). -/
/-- A parsed JSON value (the result of `json.loads`). -/
inductive J where
  | null
  | jb (b : Bool)
  | jn (n : Int)
  | js (s : String)
  | ja (xs : List J)
  | jo (kvs : List (String × J))

mutual
/-- Python `repr` of a parsed-JSON value. -/
def pyRepr : J → String
  | .null => "None"
  | .jb b => if b then "True" else "False"
  | .jn n => toString n
  | .js s => "'" ++ s ++ "'"
  | .ja xs => "[" ++ pyReprList xs ++ "]"
  | .jo kvs => "\x7b" ++ pyReprObj kvs ++ "\x7d"
/-- `repr` of list elements, comma-separated. -/
def pyReprList : List J → String
  | [] => ""
  | [x] => pyRepr x
  | x :: xs => pyRepr x ++ ", " ++ pyReprList xs
/-- `repr` of dict entries, comma-separated. -/
def pyReprObj : List (String × J) → String
  | [] => ""
  | [(k, v)] => "'" ++ k ++ "': " ++ pyRepr v
  | (k, v) :: kvs => "'" ++ k ++ "': " ++ pyRepr v ++ ", " ++ pyReprObj kvs
end

/-- Python `str` of a parsed-JSON value (differs from `repr` only on
strings). -/
def pyStr : J → String
  | .null => "None"
  | .jb b => if b then "True" else "False"
  | .jn n => toString n
  | .js s => s
  | .ja xs => "[" ++ pyReprList xs ++ "]"
  | .jo kvs => "\x7b" ++ pyReprObj kvs ++ "\x7d"

/-- Python truthiness of a parsed-JSON value. -/
def truthy : J → Bool
  | .null => false
  | .jb b => b
  | .jn n => n ≠ 0
  | .js s => ¬ (s = "")
  | .ja xs => ¬ xs.isEmpty
  | .jo kvs => ¬ kvs.isEmpty

/-- `v.get(k, d)`: defaulting key lookup on a dict, `AttributeError`
(an exception) on anything else.  Keys of parsed JSON objects are
unique, so first match suffices. -/
def dget (v : J) (k : String) (d : J) : Except Unit J :=
  match v with
  | .jo kvs => Except.ok (((kvs.find? (fun kv => kv.1 = k)).map Prod.snd).getD d)
  | _ => Except.error ()

/-- `for x in v`: the elements iterated, or `TypeError` (lists yield
elements, strings their one-character strings, dicts their keys). -/
def iterElems (v : J) : Except Unit (List J) :=
  match v with
  | .ja xs => Except.ok xs
  | .js s => Except.ok (s.data.map (fun c => J.js (String.mk [c])))
  | .jo kvs => Except.ok (kvs.map (fun kv => J.js kv.1))
  | _ => Except.error ()

/-- `v[0]`: first element of a list or one-character head of a string;
`IndexError`/`KeyError`/`TypeError` (all caught alike) otherwise — a
parsed-JSON dict has string keys, so `d[0]` raises `KeyError`. -/
def index0 (v : J) : Except Unit J :=
  match v with
  | .ja (x :: _) => Except.ok x
  | .js s =>
    match s.data with
    | c :: _ => Except.ok (J.js (String.mk [c]))
    | [] => Except.error ()
  | _ => Except.error ()

/-- `int(s)` on a string: surrounding whitespace and an optional sign
are allowed around a nonempty digit run; everything else raises
`ValueError`. -/
def strToInt (s : String) : Except Unit Int :=
  let cs := ((s.data.dropWhile Char.isWhitespace).reverse.dropWhile
    Char.isWhitespace).reverse
  match cs with
  | '-' :: ds =>
    if ¬ ds.isEmpty ∧ ds.all Char.isDigit then Except.ok (-(natOfDigits ds : Int))
    else Except.error ()
  | '+' :: ds =>
    if ¬ ds.isEmpty ∧ ds.all Char.isDigit then Except.ok (natOfDigits ds : Int)
    else Except.error ()
  | ds =>
    if ¬ ds.isEmpty ∧ ds.all Char.isDigit then Except.ok (natOfDigits ds : Int)
    else Except.error ()

/-- `int(v)`: ints pass through, bools coerce, numeric strings parse;
`None`, lists and dicts raise `TypeError`. -/
def pyToInt (v : J) : Except Unit Int :=
  match v with
  | .jn n => Except.ok n
  | .jb b => Except.ok (if b then 1 else 0)
  | .js s => strToInt s
  | _ => Except.error ()

/-- `a or b` for parsed-JSON values: `a` when truthy, else `b`. -/
def pyor (a b : J) : J := if truthy a then a else b

/-- The unified record `NextDataScraper._format_item` builds (the
wall-clock `created_at` field is omitted). -/
structure NextItem where
  id : String
  title : J
  price : Int
  thumb : J
  url : String
  status : J
  seller : J
  likes : J
  condition : J
  shipping : J

/-- `NextDataScraper._format_item`: alias cascades for id, thumbnail
and title; price accepted as a raw number or a dict with nested
`value`; URL from the item's `url` when present (with origin prefix for
relative ones, `AttributeError` for non-strings), else built from the
id.  Any raised exception surfaces as `Except.error`. -/
def format_item (item : J) : Except Unit NextItem := do
  let gid ← dget item "id" J.null
  let gitemId ← dget item "itemId" J.null
  let gprodId ← dget item "productId" (J.js "")
  let item_id := pyor gid (pyor gitemId gprodId)
  let t1 ← dget item "thumbnailUrl" J.null
  let t2 ← dget item "thumbnail" J.null
  let thumb ←
    if truthy t1 then pure t1
    else if truthy t2 then pure t2
    else do
      let t3v ← dget item "thumbnails" (J.ja [J.null])
      let t3 ← index0 t3v
      if truthy t3 then pure t3 else dget item "imageUrl" (J.js "")
  let n1 ← dget item "name" J.null
  let n2 ← dget item "title" J.null
  let n3 ← dget item "itemName" (J.js "")
  let title := pyor n1 (pyor n2 n3)
  let p0 ← dget item "price" (J.jn 0)
  let p1 ←
    match p0 with
    | J.jo _ => dget p0 "value" (J.jn 0)
    | _ => pure p0
  let price ← pyToInt p1
  let hasUrl :=
    match item with
    | J.jo kvs => kvs.any (fun kv => kv.1 = "url")
    | _ => false
  let item_url ←
    if hasUrl then do
      let u ← dget item "url" J.null
      match u with
      | J.js s =>
        pure (if s.startsWith "http" then s else "https://jp.mercari.com" ++ s)
      | _ => Except.error ()
    else pure ("https://jp.mercari.com/item/" ++ pyStr item_id)
  let status ← dget item "status" (J.js "")
  let sellerObj ← dget item "seller" (J.jo [])
  let seller ← dget sellerObj "name" (J.js "")
  let likes ← dget item "numLikes" (J.jn 0)
  let condition ← dget item "condition" (J.js "")
  let shipping ← dget item "shippingPayer" (J.js "")
  pure { id := pyStr item_id, title := title, price := price, thumb := thumb,
         url := item_url, status := status, seller := seller, likes := likes,
         condition := condition, shipping := shipping }

/-- The chain
`data.get('props',{}).get('pageProps',{}).get('initialState',{}).get('searchResult',{}).get('itemGrid',{}).get('items',[])`
of pattern 1. -/
def path1 (data : J) : Except Unit J := do
  let a ← dget data "props" (J.jo [])
  let b ← dget a "pageProps" (J.jo [])
  let c ← dget b "initialState" (J.jo [])
  let d ← dget c "searchResult" (J.jo [])
  let e ← dget d "itemGrid" (J.jo [])
  dget e "items" (J.ja [])

/-- The chain `data.get('props',{}).get('pageProps',{}).get('items',[])`
of pattern 2. -/
def path2 (data : J) : Except Unit J := do
  let a ← dget data "props" (J.jo [])
  let b ← dget a "pageProps" (J.jo [])
  dget b "items" (J.ja [])

/-- The chain
`data.get('props',{}).get('pageProps',{}).get('initialState',{}).get('entities',{}).get('items',{})`
of pattern 3. -/
def path3 (data : J) : Except Unit J := do
  let a ← dget data "props" (J.jo [])
  let b ← dget a "pageProps" (J.jo [])
  let c ← dget b "initialState" (J.jo [])
  let d ← dget c "entities" (J.jo [])
  dget d "items" (J.jo [])

/-- `for item in item_list: items.append(self._format_item(item))`
starting from the accumulated `items`: the formatted prefix up to the
first formatting exception, and whether the loop completed. -/
def formatFold (acc : List NextItem) : List J → List NextItem × Bool
  | [] => (acc, true)
  | x :: xs =>
    match format_item x with
    | Except.ok it => formatFold (acc ++ [it]) xs
    | Except.error _ => (acc, false)

/-- One `try:` block of patterns 1–2 of `_parse_items`: on the resolved
path value, if truthy, iterate and format into the shared accumulator;
`some` marks the `return items` inside the `try`, `none` the
fall-through (path exception, falsy value, non-iterable, or formatting
exception caught by the bare `except`) — in which case the possibly
mutated accumulator carries over. -/
def tryListPattern (acc : List NextItem) (pathRes : Except Unit J) :
    List NextItem × Option (List NextItem) :=
  match pathRes with
  | Except.error _ => (acc, none)
  | Except.ok v =>
    if truthy v then
      match iterElems v with
      | Except.error _ => (acc, none)
      | Except.ok l =>
        match formatFold acc l with
        | (acc2, true) => (acc2, some acc2)
        | (acc2, false) => (acc2, none)
    else (acc, none)

/-- `NextDataScraper._parse_items`: the three patterns share one
`items` accumulator; patterns 1–2 return it from inside their `try`
when their loop completes on a truthy list, pattern 3 formats the
entity map's values and the final `return items` returns whatever
accumulated. -/
def parse_items (data : J) : List NextItem :=
  match tryListPattern [] (path1 data) with
  | (_, some res) => res
  | (acc1, none) =>
    match tryListPattern acc1 (path2 data) with
    | (_, some res) => res
    | (acc2, none) =>
      match path3 data with
      | Except.error _ => acc2
      | Except.ok v =>
        match v with
        | J.jo kvs => (formatFold acc2 (kvs.map Prod.snd)).1
        | _ => acc2

/-- The entry list a pattern would iterate, when its path resolves to a
truthy iterable. -/
def shapeItems (pathRes : Except Unit J) : Option (List J) :=
  match pathRes with
  | Except.error _ => none
  | Except.ok v =>
    if truthy v then
      match iterElems v with
      | Except.ok l => some l
      | Except.error _ => none
    else none

/-- Whether formatting an entry succeeds. -/
def formatOkB (x : J) : Bool :=
  match format_item x with
  | Except.ok _ => true
  | Except.error _ => false

/-- No entry of any attempted shape raises while formatting. -/
def noFormatErrorsB (data : J) : Bool :=
  ((shapeItems (path1 data)).getD []).all formatOkB &&
  ((shapeItems (path2 data)).getD []).all formatOkB &&
  (match path3 data with
   | Except.ok (J.jo kvs) => (kvs.map Prod.snd).all formatOkB
   | _ => true)

/-- Spec-side resolver (§4.3 of the spec, written from its words): the
alternative shapes are attempted in the fixed priority order and *the
first shape yielding a non-empty list is used* — exclusively, from an
empty result. -/
def parse_items_spec (data : J) : List NextItem :=
  match shapeItems (path1 data) with
  | some l => (formatFold [] l).1
  | none =>
    match shapeItems (path2 data) with
    | some l => (formatFold [] l).1
    | none =>
      match path3 data with
      | Except.ok (J.jo kvs) => (formatFold [] (kvs.map Prod.snd)).1
      | _ => []

/-- Counterexample entry formatting cleanly (an empty dict: every alias
cascade falls back to its default). -/
def cexGoodA : J := J.jo []

/-- Counterexample entry whose formatting raises: its `seller` value is
a string, so `item.get('seller', dict).get('name', str)` hits
`AttributeError`. -/
def cexBad : J := J.jo [("seller", J.js "x")]

/-- Counterexample entry of the second shape, formatting cleanly. -/
def cexGoodB : J := J.jo [("id", J.js "B")]

/-- Counterexample payload: the itemGrid shape holds
`[cexGoodA, cexBad]`, the pageProps shape holds `[cexGoodB]`. -/
def cexData : J :=
  J.jo [("props", J.jo [("pageProps", J.jo [
    ("initialState", J.jo [("searchResult", J.jo [("itemGrid",
      J.jo [("items", J.ja [cexGoodA, cexBad])])])]),
    ("items", J.ja [cexGoodB])])])]

/-- The record `cexGoodA` formats to. -/
def cexItemA : NextItem :=
  { id := "", title := J.js "", price := 0, thumb := J.js "",
    url := "https://jp.mercari.com/item/", status := J.js "",
    seller := J.js "", likes := J.jn 0, condition := J.js "",
    shipping := J.js "" }

/-- The record `cexGoodB` formats to. -/
def cexItemB : NextItem :=
  { id := "B", title := J.js "", price := 0, thumb := J.js "",
    url := "https://jp.mercari.com/item/B", status := J.js "",
    seller := J.js "", likes := J.jn 0, condition := J.js "",
    shipping := J.js "" }

/-- A clean payload carrying only the second shape. -/
def cleanData : J :=
  J.jo [("props", J.jo [("pageProps", J.jo [("items", J.ja [cexGoodB])])])]

/-! ## Seen store and fetch pipeline (`src/modules/next_scraper.py`,
`src/mercari_monitor.py`)

`_filter_new_items` reads and writes the persistent `seen_items` table
(embedded as the list of stored ids in insertion order; the SQL
`SELECT … WHERE item_id = ?` is membership, the `INSERT` an append).
`fetch_items`'s success path extracts items, filters them against the
store — marking every new id seen — and only then truncates to
`max_items`; its exception path returns `[]` without touching the
store.  `MercariMonitor.start` applies the image filter and the NG-word
filter to `fetch_items`' *return value*, after the store writes. -/
/-- `NextDataScraper._filter_new_items`: per item in order, skip it if
its id is stored, otherwise keep it and store its id. -/
def filter_new_items : List String → List NextItem → List NextItem × List String
  | seen, [] => ([], seen)
  | seen, it :: rest =>
    if seen.contains it.id then filter_new_items seen rest
    else
      match filter_new_items (seen ++ [it.id]) rest with
      | (newItems, seen2) => (it :: newItems, seen2)

/-- `NextDataScraper.fetch_items`' handling of the extracted items
(`extracted` is what `_extract_next_data` produced from the fetched
page): an empty extraction returns `[]`; otherwise the new-item filter
runs — writing the store — and the result is truncated to
`max_items`. -/
def fetch_items (seen : List String) (extracted : List NextItem)
    (maxItems : Nat) : List NextItem × List String :=
  if extracted.isEmpty then ([], seen)
  else
    match filter_new_items seen extracted with
    | (newItems, seen2) => (newItems.take maxItems, seen2)

/-- A sequence of later `fetch_items` calls (each with its extracted
items and `max_items`), threading the persistent store: the per-call
outputs and the final store. -/
def fetch_run (seen : List String) :
    List (List NextItem × Nat) → List (List NextItem) × List String
  | [] => ([], seen)
  | (ext, mx) :: rest =>
    match fetch_items seen ext mx with
    | (out, seen2) =>
      match fetch_run seen2 rest with
      | (outs, seen3) => (out :: outs, seen3)

/-- One keyword iteration of `MercariMonitor.start`: fetch, then apply
the image filter and the NG-word filter to the fetched items only — the
store is written by `fetch_items`, before either filter runs. -/
def monitor_check (seen : List String) (extracted : List NextItem)
    (maxItems : Nat) (imageFilter ngFilter : List NextItem → List NextItem) :
    List NextItem × List String :=
  match fetch_items seen extracted maxItems with
  | (items, seen2) => (ngFilter (imageFilter items), seen2)

/-! ## Theorems settling the claims -/

/-- Any exception type classified LOW gets `retry_recommended = true`
from `handle_error` when invoked through the `retry_on_error` wrapper
(whose context carries no `driver`/`element`). -/
theorem retry_recommended_of_low (e : ExcType) (u : ℚ)
    (h : classify_error e = LOW) :
    (execute_recovery_strategy e u).retry_recommended = true := by
  cases e <;>
    simp_all [execute_recovery_strategy, default_recovery_strategy,
      classify_error, classification_table]

/-- **C1.** An operation that raises a Low-severity error on every
invocation, run under `retry_on_error` configured so that the executor's
attempt budget (`max_attempts = config.max_retries + 1`, the quantity
the code itself reports as `max_attempts`) is 3, with baseDelay 1s,
backoffMultiplier 2, maxDelay 10s, is invoked exactly 3 times, and the
propagated exception is exactly the one raised by the last (third)
attempt — whether or not an error handler was supplied. -/
theorem retry_low_three_attempts_last_error (config : RetryConfig) (handler : Bool)
    (op : Nat → Except PyExc Unit) (errs : Nat → PyExc) (us : Nat → ℚ)
    (hmax : config.max_retries + 1 = 3)
    (hbase : config.base_delay = 1) (hmult : config.backoff_multiplier = 2)
    (hcap : config.max_delay = 10)
    (hop : ∀ n, op n = Except.error (errs n))
    (hlow : ∀ n, classify_error (errs n).type = LOW) :
    retry_on_error config handler op us =
      { result := Except.error (errs 2), invocations := 3 } := by
  have h2 : config.max_retries = 2 := by omega
  have hr : ∀ n, (handle_error (errs n) (us n)).retry_recommended = true := by
    intro n
    exact retry_recommended_of_low _ _ (hlow n)
  simp only [retry_on_error, h2]
  rw [retry_loop, hop 0]
  simp only [hr 0, not_true_eq_false, and_false, if_false]
  rw [retry_loop, hop 1]
  simp only [hr 1, not_true_eq_false, and_false, if_false]
  rw [retry_loop, hop 2]

/-- Witness for C1: the concrete configuration from the claim
(`max_retries = 2`, i.e. a 3-attempt budget, 1s base delay, multiplier
2, 10s cap), an operation raising a fresh `TimeoutException` (severity
Low) on attempt `n`, with an error handler attached: exactly 3
invocations, and the third attempt's exception propagates. -/
theorem retry_low_three_attempts_last_error_witness :
    retry_on_error
      { max_retries := 2, base_delay := 1, max_delay := 10, backoff_multiplier := 2 }
      true
      (fun n => (Except.error ⟨ExcType.timeoutException, n⟩ : Except PyExc Unit))
      (fun _ => 5) =
      { result := Except.error ⟨ExcType.timeoutException, 2⟩, invocations := 3 } :=
  retry_low_three_attempts_last_error _ true _
    (fun n => ⟨ExcType.timeoutException, n⟩) _
    rfl rfl rfl rfl (fun _ => rfl) (fun _ => rfl)

/-- **C7.** `classify_error` is a total deterministic function (it is a
Lean function, hence pure and yielding the same severity on every call)
agreeing with the static severity table everywhere, and classifying
every exception type outside the table as MEDIUM. -/
theorem classify_error_total_table :
    ∀ e : PyExc, classify_error e.type = severity_table_spec e.type ∧
      (∀ n : Nat, classify_error (other n) = MEDIUM) := by
  intro e
  refine ⟨?_, fun n => rfl⟩
  cases e.type <;> rfl

/-- **C8.** For every exception type with no registered per-kind recovery
strategy, `_execute_recovery_strategy` falls back to
`_default_recovery_strategy`, which recommends a retry with the wait
drawn uniformly from [3s, 8s] exactly when the classified severity is
Low or Medium, and recommends no retry with wait 0 when the severity is
High or Critical. -/
theorem default_recovery_unregistered (e : ExcType) (u : ℚ)
    (hreg : has_registered_strategy e = false) (hu : 3 ≤ u ∧ u ≤ 8) :
    execute_recovery_strategy e u = default_recovery_strategy e u ∧
    ((execute_recovery_strategy e u).retry_recommended = true ↔
      (classify_error e = LOW ∨ classify_error e = MEDIUM)) ∧
    ((classify_error e = LOW ∨ classify_error e = MEDIUM) →
      3 ≤ (execute_recovery_strategy e u).wait_time ∧
        (execute_recovery_strategy e u).wait_time ≤ 8) ∧
    ((classify_error e = HIGH ∨ classify_error e = CRITICAL) →
      (execute_recovery_strategy e u).retry_recommended = false ∧
        (execute_recovery_strategy e u).wait_time = 0) := by
  cases e <;>
    simp_all [execute_recovery_strategy, default_recovery_strategy,
      has_registered_strategy, classify_error, classification_table]

/-- Witness for C8: an unregistered exception type (an unknown kind,
classified MEDIUM) with sampled wait 5s: the default strategy runs,
recommends a retry, and the wait lies in [3s, 8s]. -/
theorem default_recovery_unregistered_witness :
    execute_recovery_strategy (other 0) 5 = default_recovery_strategy (other 0) 5 ∧
    ((execute_recovery_strategy (other 0) 5).retry_recommended = true ↔
      (classify_error (other 0) = LOW ∨ classify_error (other 0) = MEDIUM)) ∧
    ((classify_error (other 0) = LOW ∨ classify_error (other 0) = MEDIUM) →
      3 ≤ (execute_recovery_strategy (other 0) 5).wait_time ∧
        (execute_recovery_strategy (other 0) 5).wait_time ≤ 8) ∧
    ((classify_error (other 0) = HIGH ∨ classify_error (other 0) = CRITICAL) →
      (execute_recovery_strategy (other 0) 5).retry_recommended = false ∧
        (execute_recovery_strategy (other 0) 5).wait_time = 0) :=
  default_recovery_unregistered (other 0) 5 rfl (by norm_num)

theorem digitCh_isDigit (d : Nat) : (digitCh d).isDigit = true := by
  rcases d with _|_|_|_|_|_|_|_|_|_ <;> rfl

theorem digitCh_toNat (d : Nat) (h : d < 10) : (digitCh d).toNat - 48 = d := by
  interval_cases d <;> rfl

theorem natOfDigits_append (l : List Char) (c : Char) :
    natOfDigits (l ++ [c]) = 10 * natOfDigits l + (c.toNat - 48) := by
  unfold natOfDigits
  rw [List.foldl_append]
  rfl

theorem natOfDigits_natDigits (n : Nat) : natOfDigits (natDigits n) = n := by
  induction n using Nat.strong_induction_on with
  | _ n ih =>
    rw [natDigits]
    by_cases h : n < 10
    · simp only [h, dite_true]
      show 10 * 0 + ((digitCh n).toNat - 48) = n
      rw [digitCh_toNat n h]
      omega
    · simp only [h, dite_false]
      rw [natOfDigits_append, ih (n / 10) (Nat.div_lt_self (by omega) (by omega)),
        digitCh_toNat (n % 10) (Nat.mod_lt _ (by omega))]
      omega

theorem natDigits_ne_nil (n : Nat) : natDigits n ≠ [] := by
  rw [natDigits]
  by_cases h : n < 10 <;> simp [h]

theorem mem_natDigits_isDigit (n : Nat) : ∀ c ∈ natDigits n, c.isDigit = true := by
  induction n using Nat.strong_induction_on with
  | _ n ih =>
    rw [natDigits]
    by_cases h : n < 10
    · simp only [h, dite_true]
      intro c hc
      simp only [List.mem_singleton] at hc
      subst hc
      exact digitCh_isDigit n
    · simp only [h, dite_false]
      intro c hc
      rcases List.mem_append.mp hc with h1 | h2
      · exact ih (n / 10) (Nat.div_lt_self (by omega) (by omega)) c h1
      · simp only [List.mem_singleton] at h2
        subst h2
        exact digitCh_isDigit _

theorem ne_comma_of_isDigit {c : Char} (h : c.isDigit = true) : c ≠ ',' := by
  intro hc
  subst hc
  simp at h

theorem filter_commaGroupRev (r : List Char) (k : Nat) (h : ∀ c ∈ r, c ≠ ',') :
    (commaGroupRev r k).filter (fun c => c ≠ ',') = r := by
  induction r generalizing k with
  | nil => rfl
  | cons c cs ih =>
    have hc : c ≠ ',' := h c (List.mem_cons_self _ _)
    have hcs : ∀ x ∈ cs, x ≠ ',' := fun x hx => h x (List.mem_cons_of_mem _ hx)
    have ih2 := ih (k + 1) hcs
    simp only [decide_not] at ih2
    by_cases hk : k % 3 = 0 ∧ k ≠ 0
    · simp only [commaGroupRev, if_pos hk]
      simp [List.filter_cons, hc, ih2]
    · simp only [commaGroupRev, if_neg hk]
      simp [List.filter_cons, hc, ih2]

theorem mem_commaGroupRev {c : Char} (r : List Char) (k : Nat)
    (h : c ∈ commaGroupRev r k) : c = ',' ∨ c ∈ r := by
  induction r generalizing k with
  | nil => simp [commaGroupRev] at h
  | cons d ds ih =>
    by_cases hk : k % 3 = 0 ∧ k ≠ 0
    · rw [commaGroupRev, if_pos hk] at h
      simp only [List.mem_cons] at h
      rcases h with h | h | h
      · left; exact h
      · right; simp [h]
      · rcases ih (k + 1) h with h' | h'
        · left; exact h'
        · right; simp [h']
    · rw [commaGroupRev, if_neg hk] at h
      simp only [List.mem_cons] at h
      rcases h with h | h
      · right; simp [h]
      · rcases ih (k + 1) h with h' | h'
        · left; exact h'
        · right; simp [h']

theorem filter_commaGroup (ds : List Char) (h : ∀ c ∈ ds, c ≠ ',') :
    (commaGroup ds).filter (fun c => c ≠ ',') = ds := by
  unfold commaGroup
  rw [List.filter_reverse,
    filter_commaGroupRev ds.reverse 0 (fun c hc => h c (List.mem_reverse.mp hc)),
    List.reverse_reverse]

theorem mem_commaGroup {c : Char} (ds : List Char) (h : c ∈ commaGroup ds) :
    c = ',' ∨ c ∈ ds := by
  unfold commaGroup at h
  rcases mem_commaGroupRev ds.reverse 0 (List.mem_reverse.mp h) with h' | h'
  · left; exact h'
  · right; exact List.mem_reverse.mp h'

theorem commaGroup_ne_nil (ds : List Char) (hne : ds ≠ []) (h : ∀ c ∈ ds, c ≠ ',') :
    commaGroup ds ≠ [] := by
  intro hnil
  have := filter_commaGroup ds h
  rw [hnil] at this
  exact hne this.symm

theorem priceRunsAux_run (R rest acc : List Char)
    (hR : ∀ c ∈ R, isPriceChar c = true) :
    priceRunsAux (R ++ rest) acc = priceRunsAux rest (R.reverse ++ acc) := by
  induction R generalizing acc with
  | nil => rfl
  | cons c cs ih =>
    simp only [List.cons_append, priceRunsAux,
      hR c (List.mem_cons_self _ _), if_true]
    have h2 := ih (c :: acc) (fun x hx => hR x (List.mem_cons_of_mem _ hx))
    rw [List.reverse_cons, List.append_assoc, List.singleton_append]
    exact h2

theorem priceRuns_nil : priceRuns [] = [] := rfl

theorem priceRuns_cons_not_price (c : Char) (l : List Char)
    (h : isPriceChar c = false) : priceRuns (c :: l) = priceRuns l := by
  simp [priceRuns, priceRunsAux, h]

theorem priceRuns_run_append (R rest : List Char)
    (hR : ∀ c ∈ R, isPriceChar c = true) (hne : R ≠ [])
    (hrest : ∀ c, rest.head? = some c → isPriceChar c = false) :
    priceRuns (R ++ rest) = (R, rest) :: priceRuns rest := by
  unfold priceRuns
  rw [priceRunsAux_run R rest [] hR, List.append_nil]
  have hrevne : R.reverse.isEmpty = false := by
    cases hR2 : R.reverse with
    | nil => exact absurd (by simpa using congrArg List.reverse hR2) hne
    | cons x xs => rfl
  cases rest with
  | nil =>
    simp only [priceRunsAux, hrevne, List.reverse_reverse]
    rfl
  | cons c cs =>
    have hc : isPriceChar c = false := hrest c rfl
    simp [priceRunsAux, hc, hrevne, List.reverse_reverse]

/-- All characters of a comma-grouped digit rendering lie in `[0-9,]`. -/
theorem commaGroup_natDigits_price (p : Nat) :
    ∀ c ∈ commaGroup (natDigits p), isPriceChar c = true := by
  intro c hc
  rcases mem_commaGroup _ hc with h | h
  · subst h; rfl
  · simp [isPriceChar, mem_natDigits_isDigit p c h]

/-- Removing the commas of a comma-grouped digit rendering restores the
plain digits. -/
theorem commaGroup_natDigits_filter (p : Nat) :
    (commaGroup (natDigits p)).filter (fun c => c ≠ ',') = natDigits p :=
  filter_commaGroup _ (fun c hc => ne_comma_of_isDigit (mem_natDigits_isDigit p c hc))

/-- Filtering commas out of a plain digit rendering changes nothing. -/
theorem natDigits_filter (p : Nat) :
    (natDigits p).filter (fun c => c ≠ ',') = natDigits p := by
  apply List.filter_eq_self.mpr
  intro c hc
  simpa using ne_comma_of_isDigit (mem_natDigits_isDigit p c hc)

/-- Evaluation of one `extract_price` pattern iteration on a run whose
comma-stripped digits denote `p`. -/
theorem tryPricePattern_of_digits (g : List Char) (p : Nat)
    (hfil : g.filter (fun c => c ≠ ',') = natDigits p) :
    tryPricePattern (some g) = if 10 ≤ p ∧ p ≤ 1000000 then some p else none := by
  unfold tryPricePattern
  simp only [hfil]
  rw [if_neg (by simp [List.isEmpty_iff, natDigits_ne_nil p]), natOfDigits_natDigits]

theorem priceRuns_commaGroup (p : Nat) :
    priceRuns (commaGroup (natDigits p)) = [(commaGroup (natDigits p), [])] := by
  have h := priceRuns_run_append (commaGroup (natDigits p)) []
    (commaGroup_natDigits_price p)
    (commaGroup_ne_nil (natDigits p) (natDigits_ne_nil p)
      (fun c hc => ne_comma_of_isDigit (mem_natDigits_isDigit p c hc)))
    (fun c hc => by simp at hc)
  simpa [priceRuns_nil] using h

theorem priceRuns_natDigits_yen (p : Nat) :
    priceRuns (natDigits p ++ ['円']) = [(natDigits p, ['円'])] := by
  have h := priceRuns_run_append (natDigits p) ['円']
    (fun c hc => by simp [isPriceChar, mem_natDigits_isDigit p c hc])
    (natDigits_ne_nil p)
    (fun c hc => by
      simp only [List.head?_cons, Option.some.injEq] at hc
      subst hc
      rfl)
  rw [h, priceRuns_cons_not_price _ _ (by rfl), priceRuns_nil]

/-- `extract_price` on the currency-prefixed rendering `¥⟨p with
separators⟩`: exactly the in-range values round-trip. -/
theorem extract_price_renderYenPrefix (p : Nat) :
    extract_price (renderYenPrefix p) =
      if 10 ≤ p ∧ p ≤ 1000000 then some p else none := by
  have hruns : priceRuns ('¥' :: commaGroup (natDigits p)) =
      [(commaGroup (natDigits p), [])] := by
    rw [priceRuns_cons_not_price _ _ (by rfl), priceRuns_commaGroup]
  have h1 : pattern1Group ('¥' :: commaGroup (natDigits p)) =
      some (commaGroup (natDigits p)) := by
    unfold pattern1Group
    rw [hruns]
    rfl
  have h2 : pattern2Group ('¥' :: commaGroup (natDigits p)) = none := by
    unfold pattern2Group
    rw [hruns]
    rfl
  have h3 : pattern3Group ('¥' :: commaGroup (natDigits p)) =
      some (commaGroup (natDigits p)) := by
    unfold pattern3Group
    rw [hruns]
    rfl
  unfold extract_price renderYenPrefix
  rw [h1, h2, h3,
    tryPricePattern_of_digits _ p (commaGroup_natDigits_filter p)]
  by_cases hp : 10 ≤ p ∧ p ≤ 1000000 <;> simp [hp, tryPricePattern]

/-- `extract_price` on the currency-suffixed rendering `⟨p⟩円`: exactly
the in-range values round-trip (pattern 2 also sees the digits, but its
value is subject to the same range check). -/
theorem extract_price_renderYenSuffix (p : Nat) :
    extract_price (renderYenSuffix p) =
      if 10 ≤ p ∧ p ≤ 1000000 then some p else none := by
  have h1 : pattern1Group (natDigits p ++ ['円']) = some (natDigits p) := by
    unfold pattern1Group
    rw [priceRuns_natDigits_yen]
    rfl
  have h2 : pattern2Group (natDigits p ++ ['円']) = some (natDigits p) := by
    unfold pattern2Group
    rw [priceRuns_natDigits_yen]
    rfl
  have h3 : pattern3Group (natDigits p ++ ['円']) = some (natDigits p) := by
    unfold pattern3Group
    rw [priceRuns_natDigits_yen]
    rfl
  have hne : (natDigits p ++ ['円']).isEmpty = false := by
    cases h : natDigits p ++ ['円'] with
    | nil => simp at h
    | cons c cs => rfl
  unfold extract_price renderYenSuffix
  rw [h1, h2, h3, tryPricePattern_of_digits _ p (natDigits_filter p), hne]
  by_cases hp : 10 ≤ p ∧ p ≤ 1000000 <;> simp [hp, tryPricePattern]

/-- `extract_price` on the bare separators rendering `⟨p with
separators⟩`: exactly the in-range values round-trip. -/
theorem extract_price_renderBare (p : Nat) :
    extract_price (renderBare p) =
      if 10 ≤ p ∧ p ≤ 1000000 then some p else none := by
  have h1 : pattern1Group (commaGroup (natDigits p)) =
      some (commaGroup (natDigits p)) := by
    unfold pattern1Group
    rw [priceRuns_commaGroup]
    rfl
  have h2 : pattern2Group (commaGroup (natDigits p)) = none := by
    unfold pattern2Group
    rw [priceRuns_commaGroup]
    rfl
  have h3 : pattern3Group (commaGroup (natDigits p)) =
      some (commaGroup (natDigits p)) := by
    unfold pattern3Group
    rw [priceRuns_commaGroup]
    rfl
  have hne : (commaGroup (natDigits p)).isEmpty = false := by
    cases h : commaGroup (natDigits p) with
    | nil =>
      exact absurd h (commaGroup_ne_nil (natDigits p) (natDigits_ne_nil p)
        (fun c hc => ne_comma_of_isDigit (mem_natDigits_isDigit p c hc)))
    | cons c cs => rfl
  unfold extract_price renderBare
  rw [h1, h2, h3, tryPricePattern_of_digits _ p (commaGroup_natDigits_filter p), hne]
  by_cases hp : 10 ≤ p ∧ p ≤ 1000000 <;> simp [hp, tryPricePattern]

/-- **C3.** Round-trip of price extraction over the supported renderings:
for `p ∈ [10, 1_000_000]`, `extract_price` recovers exactly `p` from the
currency-prefixed, currency-suffixed and bare comma-separated renderings;
for `p` outside that range every rendering yields `None` — rejected, not
clamped. -/
theorem extract_price_round_trip (p : Nat) :
    (10 ≤ p ∧ p ≤ 1000000 →
      extract_price (renderYenPrefix p) = some p ∧
      extract_price (renderYenSuffix p) = some p ∧
      extract_price (renderBare p) = some p) ∧
    (¬ (10 ≤ p ∧ p ≤ 1000000) →
      extract_price (renderYenPrefix p) = none ∧
      extract_price (renderYenSuffix p) = none ∧
      extract_price (renderBare p) = none) := by
  constructor <;> intro hp <;>
    simp [extract_price_renderYenPrefix, extract_price_renderYenSuffix,
      extract_price_renderBare, hp]

/-- Witness for C3: `p = 1000` (in range) round-trips through all three
renderings, and `p = 5` (below range) is rejected by all three. -/
theorem extract_price_round_trip_witness :
    ((10 ≤ 1000 ∧ 1000 ≤ 1000000) ∧
      extract_price (renderYenPrefix 1000) = some 1000 ∧
      extract_price (renderYenSuffix 1000) = some 1000 ∧
      extract_price (renderBare 1000) = some 1000) ∧
    (¬ (10 ≤ 5 ∧ 5 ≤ 1000000) ∧
      extract_price (renderYenPrefix 5) = none ∧
      extract_price (renderYenSuffix 5) = none ∧
      extract_price (renderBare 5) = none) :=
  ⟨⟨by decide, (extract_price_round_trip 1000).1 (by decide)⟩,
   ⟨by decide, (extract_price_round_trip 5).2 (by decide)⟩⟩

theorem tryPricePattern_range (g : Option (List Char)) (p : Nat)
    (h : tryPricePattern g = some p) : 10 ≤ p ∧ p ≤ 1000000 := by
  unfold tryPricePattern at h
  cases g with
  | none => simp at h
  | some run =>
    simp only at h
    split at h
    · simp at h
    · split at h
      · rename_i hr
        simp only [Option.some.injEq] at h
        subst h
        exact hr
      · simp at h

/-- Every value `extract_price` returns lies in [10, 1_000_000]. -/
theorem extract_price_range (text : List Char) (p : Nat)
    (h : extract_price text = some p) : 10 ≤ p ∧ p ≤ 1000000 := by
  unfold extract_price at h
  split at h
  · simp at h
  · cases h1 : tryPricePattern (pattern1Group text) with
    | some v =>
      rw [h1] at h
      simp only [Option.some.injEq] at h
      subst h
      exact tryPricePattern_range _ _ h1
    | none =>
      rw [h1] at h
      cases h2 : tryPricePattern (pattern2Group text) with
      | some v =>
        rw [h2] at h
        simp only [Option.some.injEq] at h
        subst h
        exact tryPricePattern_range _ _ h2
      | none =>
        rw [h2] at h
        exact tryPricePattern_range _ _ h

/-- Every value `_extract_product_price` returns lies in
[10, 1_000_000]. -/
theorem extract_product_price_range (ts : List (Option (List Char))) (p : Nat)
    (h : extract_product_price ts = some p) : 10 ≤ p ∧ p ≤ 1000000 := by
  induction ts with
  | nil => simp [extract_product_price] at h
  | cons t rest ih =>
    cases t with
    | none => exact ih h
    | some txt =>
      unfold extract_product_price at h
      split at h
      · exact ih h
      · split at h
        · rename_i q hq
          split at h
          · exact ih h
          · simp only [Option.some.injEq] at h
            subst h
            exact extract_price_range _ _ hq
        · exact ih h

/-- **C2.** Every record emitted by `extract_products_from_page` carries
`product_id`, a truthy `title` and a `price` inside [10, 1_000_000]; and
any candidate failing `_validate_product_data` is discarded
(`_extract_single_product` returns `None`), never clamped or
surfaced. -/
theorem emitted_product_invariant (evs : List ElementView)
    (genId : String → Nat → String) (kw : String → List String) :
    (∀ d ∈ extract_products_from_page evs genId kw,
      d.product_id.isSome = true ∧ truthyStr d.title = true ∧
      ∃ p, d.price = some p ∧ 10 ≤ p ∧ p ≤ 1000000) ∧
    (∀ ev : ElementView,
      research_validate_product_data (build_product_data ev genId kw) = false →
      extract_single_product ev genId kw = none) := by
  constructor
  · intro d hd
    simp only [extract_products_from_page, List.mem_filterMap] at hd
    obtain ⟨ev, -, heq⟩ := hd
    unfold extract_single_product at heq
    split at heq
    · rename_i hv
      simp only [Option.some.injEq] at heq
      subst heq
      -- dissect the validator's acceptance
      unfold research_validate_product_data at hv
      split at hv
      · simp at hv
      · rename_i htt
        have htitle : truthyStr (build_product_data ev genId kw).title = true := by
          by_contra hc
          exact htt (by simpa using hc)
        split at hv
        · simp at hv
        · rename_i htp
          have hpricet : truthyNat (build_product_data ev genId kw).price = true := by
            by_contra hc
            exact htp (by simpa using hc)
          -- the price field is the output of `_extract_product_price`
          have hpf : (build_product_data ev genId kw).price =
              extract_product_price ev.priceTexts := rfl
          cases hp : (build_product_data ev genId kw).price with
          | none => rw [hp] at hpricet; simp [truthyNat] at hpricet
          | some p =>
            have hrange : 10 ≤ p ∧ p ≤ 1000000 :=
              extract_product_price_range ev.priceTexts p (hpf ▸ hp)
            refine ⟨?_, htitle, p, rfl, hrange⟩
            -- product_id is set because title and price are truthy
            cases ht : ev.title with
            | none =>
              have : (build_product_data ev genId kw).title = none := by
                simp [build_product_data, ht]
              rw [this] at htitle
              simp [truthyStr] at htitle
            | some t =>
              have htne : t ≠ "" := by
                have : (build_product_data ev genId kw).title = some t := by
                  simp [build_product_data, ht]
                rw [this] at htitle
                simpa [truthyStr] using htitle
              have hpne : p ≠ 0 := by
                rw [hp] at hpricet
                simpa [truthyNat] using hpricet
              have hpe : extract_product_price ev.priceTexts = some p := hpf ▸ hp
              simp [build_product_data, ht, hpe, htne, hpne]
    · simp at heq
  · intro ev hv
    unfold extract_single_product
    simp [hv]

/-- Witness for C2: on a page with one valid element and one element
missing its title, exactly the valid element's record is emitted, and it
satisfies the invariant; the title-less candidate is discarded. -/
theorem emitted_product_invariant_witness :
    (build_product_data evValid genId0 kw0) ∈
      extract_products_from_page [evValid, evNoTitle] genId0 kw0 ∧
    ((build_product_data evValid genId0 kw0).product_id.isSome = true ∧
      truthyStr (build_product_data evValid genId0 kw0).title = true ∧
      ∃ p, (build_product_data evValid genId0 kw0).price = some p ∧
        10 ≤ p ∧ p ≤ 1000000) ∧
    (research_validate_product_data (build_product_data evNoTitle genId0 kw0) = false ∧
      extract_single_product evNoTitle genId0 kw0 = none) := by
  refine ⟨by decide, ?_, by decide, ?_⟩
  · exact (emitted_product_invariant [evValid, evNoTitle] genId0 kw0).1 _ (by decide)
  · exact (emitted_product_invariant [evValid, evNoTitle] genId0 kw0).2 evNoTitle (by decide)

theorem is_duplicate_of_near (seen : List (List Char)) (h : List Char)
    (hex : ∃ s ∈ seen, hamming_distance h s ≤ 4) :
    is_duplicate seen h = (true, seen) := by
  unfold is_duplicate
  rw [if_pos]
  simp only [List.any_eq_true, decide_eq_true_eq]
  obtain ⟨s, hs, hd⟩ := hex
  exact ⟨s, hs, hd⟩

theorem is_duplicate_of_far (seen : List (List Char)) (h : List Char)
    (hall : ∀ s ∈ seen, 5 ≤ hamming_distance h s) :
    is_duplicate seen h = (false, seen ++ [h]) := by
  unfold is_duplicate
  rw [if_neg]
  simp only [List.any_eq_true, decide_eq_true_eq, not_exists]
  intro s hs
  obtain ⟨hmem, hd⟩ := hs
  have := hall s hmem
  omega

/-- **C4.** The near-duplicate filter's boundary is 4: a new fingerprint
within Hamming distance 4 of some indexed fingerprint is rejected and
not added to the index; one at distance at least 5 from every indexed
fingerprint is admitted and appended to the index. -/
theorem near_duplicate_threshold (seen : List (List Char)) (h : List Char) :
    ((∃ s ∈ seen, hamming_distance h s ≤ 4) →
      is_duplicate seen h = (true, seen)) ∧
    ((∀ s ∈ seen, 5 ≤ hamming_distance h s) →
      is_duplicate seen h = (false, seen ++ [h])) :=
  ⟨is_duplicate_of_near seen h, is_duplicate_of_far seen h⟩

/-- Witness for C4: against an index holding `aaaaa`, the fingerprint
`abbba` (distance 3 ≤ 4) is rejected and the index is untouched, while
`bbbbb` (distance 5) is admitted and appended to the index. -/
theorem near_duplicate_threshold_witness :
    is_duplicate [['a', 'a', 'a', 'a', 'a']] ['a', 'b', 'b', 'b', 'a'] =
      (true, [['a', 'a', 'a', 'a', 'a']]) ∧
    is_duplicate [['a', 'a', 'a', 'a', 'a']] ['b', 'b', 'b', 'b', 'b'] =
      (false, [['a', 'a', 'a', 'a', 'a'], ['b', 'b', 'b', 'b', 'b']]) :=
  ⟨(near_duplicate_threshold _ _).1 ⟨['a', 'a', 'a', 'a', 'a'], by decide, by decide⟩,
   (near_duplicate_threshold _ _).2 (by decide)⟩

/-- **C5.** For an image that reaches scoring (thumbnail present,
download succeeded, not a near-duplicate), with the white-background
check configured on, the classifier passes exactly when
`score / 5 ≥ 0.6`, where `score` adds 2 for white background and 1 each
for resolution, lighting and sharpness — possible points total 5
regardless of outcomes. -/
theorem quality_ratio_threshold (cfg : ImageFilterConfig)
    (download : String → Option Img) (seen : List (List Char))
    (item : FilterItem) (img : Img)
    (hw : cfg.white_background = true)
    (ht : ¬ item.thumb_url = "")
    (hdl : download item.thumb_url = some img)
    (hnd : ∀ s ∈ seen, 5 ≤ hamming_distance img.phash s) :
    (is_professional_item cfg download seen item).1 = true ↔
      ((((if img.whiteBackground then 2 else 0) +
         (if cfg.min_resolution ≤ min img.width img.height then 1 else 0) +
         (if img.goodLighting then 1 else 0) +
         (if img.sharp then 1 else 0) : Nat) : ℚ) / 5 ≥ 3 / 5) := by
  unfold is_professional_item
  rw [if_neg ht, hdl]
  simp only
  rw [is_duplicate_of_far seen img.phash hnd]
  simp only [hw, if_true]
  norm_num

/-- Witness for C5: under `cfg0`, the 3-of-5 image passes and the 2-of-5
image fails. -/
theorem quality_ratio_threshold_witness :
    (is_professional_item cfg0 download0 [] ⟨"https://img/3", 0⟩).1 = true ∧
    (is_professional_item cfg0 download0 [] ⟨"https://img/2", 1⟩).1 = false := by
  constructor
  · exact (quality_ratio_threshold cfg0 download0 [] ⟨"https://img/3", 0⟩ img3of5
      rfl (by decide) (by decide) (by simp)).mpr (by norm_num [img3of5, cfg0])
  · have h := quality_ratio_threshold cfg0 download0 [] ⟨"https://img/2", 1⟩ img2of5
      rfl (by decide) (by decide) (by simp)
    cases hb : (is_professional_item cfg0 download0 [] ⟨"https://img/2", 1⟩).1 with
    | false => rfl
    | true =>
      have := h.mp hb
      norm_num [img2of5, cfg0] at this

theorem is_professional_item_of_download_none (cfg : ImageFilterConfig)
    (download : String → Option Img) (seen : List (List Char))
    (item : FilterItem) (hdl : download item.thumb_url = none) :
    is_professional_item cfg download seen item = (false, seen) := by
  unfold is_professional_item
  by_cases ht : item.thumb_url = ""
  · rw [if_pos ht]
  · rw [if_neg ht, hdl]

/-- **C9.** An item whose image is unreachable or undecodable
(`_download_image` returns `None`) is classified failed — the
fingerprint index is left untouched — and is excluded from
`filter_items`' result, whatever the index state and the surrounding
items; `filter_items`, a total function here exactly because every
exception path of `_is_professional_item` is caught and mapped to
`False`, propagates nothing to the caller. -/
theorem unreachable_image_filtered (cfg : ImageFilterConfig)
    (download : String → Option Img) (seen : List (List Char))
    (items : List FilterItem) (item : FilterItem)
    (hdl : download item.thumb_url = none) :
    is_professional_item cfg download seen item = (false, seen) ∧
    ∀ seen0, item ∉ (filter_items cfg download seen0 items).1 := by
  refine ⟨is_professional_item_of_download_none cfg download seen item hdl, ?_⟩
  induction items with
  | nil => intro seen0; simp [filter_items]
  | cons it rest ih =>
    intro seen0
    simp only [filter_items]
    rcases hpro : is_professional_item cfg download seen0 it with ⟨ok, seen2⟩
    rcases hrest : filter_items cfg download seen2 rest with ⟨tail, seen3⟩
    simp only
    have htail : item ∉ tail := by
      have := ih seen2
      rw [hrest] at this
      exact this
    by_cases heq : it = item
    · subst heq
      rw [is_professional_item_of_download_none cfg download seen0 it hdl] at hpro
      injection hpro with h1 h2
      rw [← h1]
      simpa using htail
    · intro hmem
      by_cases hok : ok = true
      · rw [if_pos hok] at hmem
        rcases List.mem_cons.mp hmem with h | h
        · exact heq h.symm
        · exact htail h
      · rw [if_neg hok] at hmem
        exact htail hmem

/-- Witness for C9: an item with an unreachable thumbnail is classified
failed with the index untouched, and is absent from the filtered result
even alongside a passing item. -/
theorem unreachable_image_filtered_witness :
    is_professional_item cfg0 download0 [] ⟨"https://img/broken", 2⟩ = (false, []) ∧
    (⟨"https://img/broken", 2⟩ : FilterItem) ∉
      (filter_items cfg0 download0 []
        [⟨"https://img/broken", 2⟩, ⟨"https://img/3", 0⟩]).1 :=
  ⟨(unreachable_image_filtered cfg0 download0 []
      [⟨"https://img/broken", 2⟩, ⟨"https://img/3", 0⟩] ⟨"https://img/broken", 2⟩
      (by decide)).1,
   (unreachable_image_filtered cfg0 download0 []
      [⟨"https://img/broken", 2⟩, ⟨"https://img/3", 0⟩] ⟨"https://img/broken", 2⟩
      (by decide)).2 []⟩

/-- Counterexample to C6 as stated: on `cexData` the first shape is
attempted (non-empty, at the itemGrid path), its first entry is
formatted into the shared accumulator, its second entry raises; the
bare `except` then lets pattern 2 run on the same accumulator, so the
result mixes a record from shape 1 with a record from shape 2. -/
theorem parse_items_mixes_shapes_cex :
    shapeItems (path1 cexData) = some [cexGoodA, cexBad] ∧
    shapeItems (path2 cexData) = some [cexGoodB] ∧
    format_item cexGoodA = Except.ok cexItemA ∧
    format_item cexBad = Except.error () ∧
    format_item cexGoodB = Except.ok cexItemB ∧
    parse_items cexData = [cexItemA, cexItemB] ∧
    cexItemA.id ≠ cexItemB.id :=
  ⟨rfl, rfl, rfl, rfl, rfl, rfl, by decide⟩

theorem formatFold_acc (l : List J) (acc : List NextItem) :
    formatFold acc l = (acc ++ (formatFold [] l).1, (formatFold [] l).2) := by
  induction l generalizing acc with
  | nil => simp [formatFold]
  | cons x xs ih =>
    simp only [formatFold]
    cases hx : format_item x with
    | ok it =>
      dsimp only
      rw [ih (acc ++ [it]), ih ([] ++ [it])]
      simp
    | error e =>
      dsimp only
      simp

theorem formatFold_complete (l : List J) (h : l.all formatOkB = true) :
    (formatFold [] l).2 = true := by
  induction l with
  | nil => rfl
  | cons x xs ih =>
    simp only [List.all_cons, Bool.and_eq_true] at h
    obtain ⟨hx, hxs⟩ := h
    unfold formatOkB at hx
    simp only [formatFold]
    cases hf : format_item x with
    | ok it =>
      dsimp only
      rw [formatFold_acc xs ([] ++ [it])]
      simpa using ih hxs
    | error e => rw [hf] at hx; simp at hx

theorem tryListPattern_eq (acc : List NextItem) (pr : Except Unit J) :
    tryListPattern acc pr =
      match shapeItems pr with
      | none => (acc, none)
      | some l =>
        match formatFold acc l with
        | (a2, true) => (a2, some a2)
        | (a2, false) => (a2, none) := by
  unfold tryListPattern shapeItems
  cases pr with
  | error e => rfl
  | ok v =>
    by_cases ht : truthy v = true
    · simp only [ht, if_true]
      cases hi : iterElems v with
      | ok l => rfl
      | error e => rfl
    · simp only [Bool.not_eq_true] at ht
      simp [ht]

/-- **C6 (amended).** Provided no entry of any attempted shape raises
while being formatted, the structured resolver uses the alternative
shapes in their fixed priority order and the first shape yielding a
non-empty list exclusively: the result equals the spec-side resolver's,
whose records all come from that single shape.  (Without that proviso
the shared accumulator lets shapes mix — see the counterexample.) -/
theorem parse_items_single_shape (data : J) (h : noFormatErrorsB data = true) :
    parse_items data = parse_items_spec data := by
  unfold noFormatErrorsB at h
  simp only [Bool.and_eq_true] at h
  obtain ⟨⟨h1ok, h2ok⟩, h3ok⟩ := h
  unfold parse_items parse_items_spec
  rw [tryListPattern_eq]
  cases hs1 : shapeItems (path1 data) with
  | some l =>
    rw [hs1] at h1ok
    simp only [Option.getD_some] at h1ok
    have hc := formatFold_complete l h1ok
    rcases hf : formatFold [] l with ⟨a2, flag⟩
    rw [hf] at hc
    dsimp only at hc
    subst hc
    dsimp only
    rw [hf]
  | none =>
    dsimp only
    rw [tryListPattern_eq]
    cases hs2 : shapeItems (path2 data) with
    | some l =>
      rw [hs2] at h2ok
      simp only [Option.getD_some] at h2ok
      have hc := formatFold_complete l h2ok
      rcases hf : formatFold [] l with ⟨a2, flag⟩
      rw [hf] at hc
      dsimp only at hc
      subst hc
      dsimp only
      rw [hf]
    | none =>
      dsimp only
      cases hp3 : path3 data with
      | error e => rfl
      | ok v =>
        cases v with
        | jo kvs => rfl
        | null => rfl
        | jb b => rfl
        | jn n => rfl
        | js s => rfl
        | ja xs => rfl

/-- Witness for the amended C6: on a clean payload carrying only the
second shape, the resolver and the spec-side resolver agree. -/
theorem parse_items_single_shape_witness :
    noFormatErrorsB cleanData = true ∧
    parse_items cleanData = parse_items_spec cleanData :=
  ⟨rfl, parse_items_single_shape cleanData rfl⟩

theorem contains_iff_mem (l : List String) (a : String) :
    l.contains a = true ↔ a ∈ l := by
  induction l with
  | nil => simp
  | cons x xs ih =>
    simp only [List.contains_cons, Bool.or_eq_true, beq_iff_eq, List.mem_cons]
    constructor
    · rintro (h | h)
      · left; exact h
      · right; exact ih.mp h
    · rintro (h | h)
      · left; exact h
      · right; exact ih.mpr h

theorem filter_new_items_mono (items : List NextItem) (seen : List String)
    (a : String) (h : a ∈ seen) : a ∈ (filter_new_items seen items).2 := by
  induction items generalizing seen with
  | nil => exact h
  | cons x rest ih =>
    by_cases hx : seen.contains x.id = true
    · simp only [filter_new_items, hx, if_true]
      exact ih seen h
    · simp only [filter_new_items, hx, if_false, Bool.false_eq_true]
      rcases hm : filter_new_items (seen ++ [x.id]) rest with ⟨newItems, seen2⟩
      have := ih (seen ++ [x.id]) (List.mem_append_left _ h)
      rw [hm] at this
      exact this

theorem filter_new_items_marks (items : List NextItem) (seen : List String) :
    ∀ it ∈ items, it.id ∈ (filter_new_items seen items).2 := by
  induction items generalizing seen with
  | nil => intro it h; simp at h
  | cons x rest ih =>
    intro it hit
    by_cases hx : seen.contains x.id = true
    · simp only [filter_new_items, hx, if_true]
      rcases List.mem_cons.mp hit with h | h
      · subst h
        exact filter_new_items_mono rest seen it.id ((contains_iff_mem _ _).mp hx)
      · exact ih seen it h
    · simp only [filter_new_items, hx, if_false, Bool.false_eq_true]
      rcases hm : filter_new_items (seen ++ [x.id]) rest with ⟨newItems, seen2⟩
      rcases List.mem_cons.mp hit with h | h
      · subst h
        have := filter_new_items_mono rest (seen ++ [it.id]) it.id
          (List.mem_append_right _ (List.mem_singleton.mpr rfl))
        rw [hm] at this
        exact this
      · have := ih (seen ++ [x.id]) it h
        rw [hm] at this
        exact this

theorem filter_new_items_fresh (items : List NextItem) (seen : List String)
    (a : String) (h : a ∈ seen) :
    ∀ it ∈ (filter_new_items seen items).1, it.id ≠ a := by
  induction items generalizing seen with
  | nil => intro it hmem; simp [filter_new_items] at hmem
  | cons x rest ih =>
    intro it hmem
    by_cases hx : seen.contains x.id = true
    · simp only [filter_new_items, hx, if_true] at hmem
      exact ih seen h it hmem
    · simp only [filter_new_items, hx, if_false, Bool.false_eq_true] at hmem
      rcases hm : filter_new_items (seen ++ [x.id]) rest with ⟨newItems, seen2⟩
      rw [hm] at hmem
      simp only [List.mem_cons] at hmem
      rcases hmem with hh | hh
      · subst hh
        intro heq
        exact hx ((contains_iff_mem _ _).mpr (heq ▸ h))
      · have := ih (seen ++ [x.id]) (List.mem_append_left _ h) it
        rw [hm] at this
        exact this hh

theorem fetch_items_mono (seen : List String) (ext : List NextItem)
    (mx : Nat) (a : String) (h : a ∈ seen) :
    a ∈ (fetch_items seen ext mx).2 := by
  unfold fetch_items
  split
  · exact h
  · rcases hm : filter_new_items seen ext with ⟨newItems, seen2⟩
    have := filter_new_items_mono ext seen a h
    rw [hm] at this
    exact this

theorem fetch_items_marks (seen : List String) (ext : List NextItem)
    (mx : Nat) (hne : ¬ ext.isEmpty = true) :
    ∀ it ∈ ext, it.id ∈ (fetch_items seen ext mx).2 := by
  intro it hit
  unfold fetch_items
  rw [if_neg hne]
  rcases hm : filter_new_items seen ext with ⟨newItems, seen2⟩
  have := filter_new_items_marks ext seen it hit
  rw [hm] at this
  exact this

theorem fetch_items_fresh (seen : List String) (ext : List NextItem)
    (mx : Nat) (a : String) (h : a ∈ seen) :
    ∀ it ∈ (fetch_items seen ext mx).1, it.id ≠ a := by
  intro it hit
  unfold fetch_items at hit
  split at hit
  · simp at hit
  · rcases hm : filter_new_items seen ext with ⟨newItems, seen2⟩
    rw [hm] at hit
    simp only at hit
    have hsub : it ∈ newItems := List.take_subset _ _ hit
    have := filter_new_items_fresh ext seen a h it
    rw [hm] at this
    exact this hsub

theorem fetch_run_avoids (batches : List (List NextItem × Nat))
    (seen : List String) (a : String) (h : a ∈ seen) :
    ∀ out ∈ (fetch_run seen batches).1, ∀ it ∈ out, it.id ≠ a := by
  induction batches generalizing seen with
  | nil => intro out hout; simp [fetch_run] at hout
  | cons b rest ih =>
    intro out hout
    rcases b with ⟨ext, mx⟩
    simp only [fetch_run] at hout
    rcases hf : fetch_items seen ext mx with ⟨o1, seen2⟩
    rw [hf] at hout
    rcases hr : fetch_run seen2 rest with ⟨outs, seen3⟩
    rw [hr] at hout
    simp only [List.mem_cons] at hout
    rcases hout with hh | hh
    · subst hh
      intro it hit
      have := fetch_items_fresh seen ext mx a h it
      rw [hf] at this
      exact this hit
    · have hmono := fetch_items_mono seen ext mx a h
      rw [hf] at hmono
      have := ih seen2 hmono out
      rw [hr] at this
      exact this hh

/-- **C10.** `fetch_items` writes every extracted item id into the
persistent seen store before the monitor's image/NG filters see
anything (the filters transform only `fetch_items`' return value; the
store they leave is exactly the one `fetch_items` wrote); consequently
once an id has been extracted — even if the item is then dropped by
`max_items` truncation or a downstream filter — no later `fetch_items`
call, over any sequence of later fetches, ever returns an item with
that id. -/
theorem seen_marked_at_extraction (seen : List String)
    (extracted : List NextItem) (maxItems : Nat)
    (imageFilter ngFilter : List NextItem → List NextItem) (it : NextItem)
    (hit : it ∈ extracted) (hne : ¬ extracted.isEmpty = true) :
    it.id ∈ (fetch_items seen extracted maxItems).2 ∧
    (monitor_check seen extracted maxItems imageFilter ngFilter).2 =
      (fetch_items seen extracted maxItems).2 ∧
    ∀ batches,
      ∀ out ∈ (fetch_run (fetch_items seen extracted maxItems).2 batches).1,
        ∀ it2 ∈ out, it2.id ≠ it.id := by
  refine ⟨fetch_items_marks seen extracted maxItems hne it hit, ?_, ?_⟩
  · unfold monitor_check
    rcases hf : fetch_items seen extracted maxItems with ⟨o, s2⟩
    rfl
  · intro batches
    exact fetch_run_avoids batches _ it.id
      (fetch_items_marks seen extracted maxItems hne it hit)

/-- Witness for C10: the id of an extracted item is in the store right
after extraction — with an image filter that drops everything, so the
item never reaches the caller — and a later fetch extracting the same
item returns nothing bearing that id (evaluated instance of the
run-quantified conclusion). -/
theorem seen_marked_at_extraction_witness :
    cexItemB.id ∈ (fetch_items [] [cexItemB] 1).2 ∧
    (monitor_check [] [cexItemB] 1 (fun _ => []) (fun l => l)).2 =
      (fetch_items [] [cexItemB] 1).2 :=
  ⟨(seen_marked_at_extraction [] [cexItemB] 1 (fun _ => []) (fun l => l)
      cexItemB (List.mem_singleton.mpr rfl) (by simp)).1,
   (seen_marked_at_extraction [] [cexItemB] 1 (fun _ => []) (fun l => l)
      cexItemB (List.mem_singleton.mpr rfl) (by simp)).2.1⟩

end Merukari
